import Mathlib

/-!
# Verification development for `src/box/sql/sqlInt.h`

A shallow embedding of the executable macros of the SQL engine's internal
header, followed by theorems about them.

Conventions of the embedding:

* a byte string `const uint8_t *str` is a `List Nat`; the read `str[i]` is
  `str.getD i 0`, and every theorem only reads offsets inside the string;
* the cast `(uint8_t)(x)` is `x % 256`;
* a C `int` is an `Int` in `[-2^31, 2^31)`; the bit operations on it go through
  its 32-bit two's complement pattern, with explicit `% 2^32`.
-/

namespace SqlInt

/-! ## UTF-8 helpers (`SQL_UTF8_COUNT_TRAIL_BYTES`, `SQL_UTF8_FWD_1`) -/

/-- The C cast `(uint8_t)(x)`. -/
def uint8_t (x : Nat) : Nat := x % 256

/-- The C value of a comparison: `1` when it holds, `0` otherwise. -/
def c_bool (p : Prop) [Decidable p] : Nat := if p then 1 else 0

/-- Macro `SQL_UTF8_COUNT_TRAIL_BYTES(lead_byte)`:
`(((uint8_t)(lead_byte) >= 0xc2) + ((uint8_t)(lead_byte) >= 0xe0) +
  ((uint8_t)(lead_byte) >= 0xf0))`. -/
def SQL_UTF8_COUNT_TRAIL_BYTES (lead_byte : Nat) : Nat :=
  c_bool (uint8_t lead_byte ≥ 0xc2) + c_bool (uint8_t lead_byte ≥ 0xe0) +
    c_bool (uint8_t lead_byte ≥ 0xf0)

/-- Macro `SQL_UTF8_FWD_1(str, i, byte_size)`, as a function from the old offset
to the new one:
`(i) += 1 + SQL_UTF8_COUNT_TRAIL_BYTES((str)[i]);`
`(i) = (i) <= (byte_size) ? (i) : (byte_size);`. -/
def SQL_UTF8_FWD_1 (str : List Nat) (i byte_size : Nat) : Nat :=
  let i1 := i + (1 + SQL_UTF8_COUNT_TRAIL_BYTES (str.getD i 0))
  if i1 ≤ byte_size then i1 else byte_size

/-- The traversal the comment of `SQL_UTF8_FWD_1` speaks of: while the offset is
below `byte_size`, apply the macro. The state is the offset `i` and the number
`n` of applications made so far; `none` means the fuel ran out with the offset
still below `byte_size`. -/
def utf8_traverse : Nat → List Nat → Nat → Nat → Nat → Option (Nat × Nat)
  | 0, _, i, byte_size, n => if i < byte_size then none else some (i, n)
  | fuel + 1, str, i, byte_size, n =>
    if i < byte_size then
      utf8_traverse fuel str (SQL_UTF8_FWD_1 str i byte_size) byte_size (n + 1)
    else some (i, n)

/-! ## `SQL_SKIP_UTF8` -/

/-- The `while` loop of `SQL_SKIP_UTF8`, `while( (*zIn & 0xc0)==0x80 ){ zIn++; }`,
run over the bytes that start at `zIn`. `none` is a read past the end of the
buffer. -/
def skip_utf8_trail : List Nat → Nat → Option Nat
  | [], _ => none
  | b :: rest, zIn =>
    if b &&& 0xc0 = 0x80 then skip_utf8_trail rest (zIn + 1) else some zIn

/-- Macro `SQL_SKIP_UTF8(zIn)` on a buffer of unsigned bytes, from the old
position `zIn` to the new one:
`if( (*(zIn++))>=0xc0 ){ while( (*zIn & 0xc0)==0x80 ){ zIn++; } }`.
`none` is a read past the end of the buffer. -/
def SQL_SKIP_UTF8 (buf : List Nat) (zIn : Nat) : Option Nat :=
  match buf.drop zIn with
  | [] => none
  | b :: rest => if b ≥ 0xc0 then skip_utf8_trail rest (zIn + 1) else some (zIn + 1)

/-- A UTF-8 continuation byte, `0x80..0xBF`. -/
def utf8_is_continuation (b : Nat) : Bool := decide (0x80 ≤ b) && decide (b ≤ 0xBF)

/-- The byte sequence is one valid UTF-8 character, after the table of
well-formed UTF-8 byte sequences of the Unicode standard (no overlong forms, no
surrogates, nothing above U+10FFFF). This is the notion the statement about
`SQL_SKIP_UTF8` is about; it is not part of the header. -/
def utf8_valid_char : List Nat → Bool
  | [b0] => decide (b0 ≤ 0x7F)
  | [b0, b1] => decide (0xC2 ≤ b0) && decide (b0 ≤ 0xDF) && utf8_is_continuation b1
  | [b0, b1, b2] =>
    ((decide (b0 = 0xE0) && decide (0xA0 ≤ b1) && decide (b1 ≤ 0xBF)) ||
     (decide (0xE1 ≤ b0) && decide (b0 ≤ 0xEC) && utf8_is_continuation b1) ||
     (decide (b0 = 0xED) && decide (0x80 ≤ b1) && decide (b1 ≤ 0x9F)) ||
     (decide (0xEE ≤ b0) && decide (b0 ≤ 0xEF) && utf8_is_continuation b1)) &&
    utf8_is_continuation b2
  | [b0, b1, b2, b3] =>
    ((decide (b0 = 0xF0) && decide (0x90 ≤ b1) && decide (b1 ≤ 0xBF)) ||
     (decide (0xF1 ≤ b0) && decide (b0 ≤ 0xF3) && utf8_is_continuation b1) ||
     (decide (b0 = 0xF4) && decide (0x80 ≤ b1) && decide (b1 ≤ 0x8F))) &&
    utf8_is_continuation b2 && utf8_is_continuation b3
  | _ => false

/-! ## `SET_CONFLICT_FLAG` -/

/-- Modelled from the spec: `enum on_conflict_action` is declared outside this
header; only its constants are used here. The seven actions are the ones the
conflict-resolution policy names: none, rollback, abort, fail, ignore, replace
and default. -/
inductive on_conflict_action where
  | ON_CONFLICT_ACTION_NONE
  | ON_CONFLICT_ACTION_ROLLBACK
  | ON_CONFLICT_ACTION_ABORT
  | ON_CONFLICT_ACTION_FAIL
  | ON_CONFLICT_ACTION_IGNORE
  | ON_CONFLICT_ACTION_REPLACE
  | ON_CONFLICT_ACTION_DEFAULT
  deriving DecidableEq

open on_conflict_action

/-- Flag `OPFLAG_OE_IGNORE`, defined as `0x200`: OP_IdxInsert, ignore flag. -/
def OPFLAG_OE_IGNORE : Nat := 0x200
/-- Flag `OPFLAG_OE_FAIL`, defined as `0x400`: OP_IdxInsert, fail flag. -/
def OPFLAG_OE_FAIL : Nat := 0x400
/-- Flag `OPFLAG_OE_ROLLBACK`, defined as `0x800`: OP_IdxInsert, rollback flag. -/
def OPFLAG_OE_ROLLBACK : Nat := 0x800

/-- Macro `SET_CONFLICT_FLAG(opflag, on_conflict)`, from the old value of
`opflag` to the new one:
`if (on_conflict == ON_CONFLICT_ACTION_IGNORE) opflag |= OPFLAG_OE_IGNORE;`
`else if (on_conflict == ON_CONFLICT_ACTION_FAIL) opflag |= OPFLAG_OE_FAIL;`
`else if (on_conflict == ON_CONFLICT_ACTION_ROLLBACK) opflag |= OPFLAG_OE_ROLLBACK;`. -/
def SET_CONFLICT_FLAG (opflag : Nat) (on_conflict : on_conflict_action) : Nat :=
  if on_conflict = ON_CONFLICT_ACTION_IGNORE then opflag ||| OPFLAG_OE_IGNORE
  else if on_conflict = ON_CONFLICT_ACTION_FAIL then opflag ||| OPFLAG_OE_FAIL
  else if on_conflict = ON_CONFLICT_ACTION_ROLLBACK then opflag ||| OPFLAG_OE_ROLLBACK
  else opflag

/-! ## SELECT result types and `IgnorableOrderby` -/

/-- Store result as keys in an index. -/
def SRT_Union : Nat := 1
/-- Remove result from a UNION index. -/
def SRT_Except : Nat := 2
/-- Store 1 if the result is not empty. -/
def SRT_Exists : Nat := 3
/-- Do not save the results anywhere. -/
def SRT_Discard : Nat := 4
/-- Store result as data with an automatic rowid. -/
def SRT_Fifo : Nat := 5
/-- Like SRT_Fifo, but unique results only. -/
def SRT_DistFifo : Nat := 6
/-- Store result in an queue. -/
def SRT_Queue : Nat := 7
/-- Like SRT_Queue, but unique results only. -/
def SRT_DistQueue : Nat := 8
/-- Output each row of result. -/
def SRT_Output : Nat := 9
/-- Store result in a memory cell. -/
def SRT_Mem : Nat := 10
/-- Store results as keys in an index. -/
def SRT_Set : Nat := 11
/-- Create transient tab and store like SRT_Table. -/
def SRT_EphemTab : Nat := 12
/-- Generate a single row of result. -/
def SRT_Coroutine : Nat := 13
/-- Store result as data with an automatic rowid. -/
def SRT_Table : Nat := 14

/-- The integer fields of `struct SelectDest` (the pointers `dest_type` and
`pOrderBy` play no part in what follows). -/
structure SelectDest where
  /-- How to dispose of the results, one of `SRT_*`. -/
  eDest : Nat
  /-- A parameter used by the disposal method. -/
  iSDParm : Int
  /-- Register containing the ephemeral space pointer. -/
  reg_eph : Int
  /-- Base register where results are written. -/
  iSdst : Int
  /-- Number of registers allocated. -/
  nSdst : Int

/-- Macro `IgnorableOrderby(X)`: `((X->eDest)<=SRT_DistQueue)`. -/
def IgnorableOrderby (X : SelectDest) : Bool := decide (X.eDest ≤ SRT_DistQueue)

/-- The fourteen `SRT_*` destinations. -/
def SRT_all : List Nat :=
  [SRT_Union, SRT_Except, SRT_Exists, SRT_Discard, SRT_Fifo, SRT_DistFifo, SRT_Queue,
   SRT_DistQueue, SRT_Output, SRT_Mem, SRT_Set, SRT_EphemTab, SRT_Coroutine, SRT_Table]

/-- The destinations defined above the macro `IgnorableOrderby`. -/
def SRT_above_macro : List Nat :=
  [SRT_Union, SRT_Except, SRT_Exists, SRT_Discard, SRT_Fifo, SRT_DistFifo, SRT_Queue,
   SRT_DistQueue]

/-- The destinations defined below the macro, which must honor ORDER BY. -/
def SRT_below_macro : List Nat :=
  [SRT_Output, SRT_Mem, SRT_Set, SRT_EphemTab, SRT_Coroutine, SRT_Table]

/-! ## Integer macros on a C `int` (`ROUND8`, `ROUNDDOWN8`, `IsPowerOfTwo`) -/

/-- The 32-bit two's complement pattern of a C `int`. -/
def int_to_bits (x : Int) : Nat := (x % 2 ^ 32).toNat

/-- The C `int` a 32-bit pattern stands for. -/
def int_of_bits (n : Nat) : Int :=
  if n % 2 ^ 32 < 2 ^ 31 then ((n % 2 ^ 32 : Nat) : Int) else ((n % 2 ^ 32 : Nat) : Int) - 2 ^ 32

/-- `a + b` on `int`, wrapping modulo `2^32`. -/
def int_add (a b : Int) : Int := int_of_bits (int_to_bits (a + b))

/-- `a - b` on `int`, wrapping modulo `2^32`. -/
def int_sub (a b : Int) : Int := int_of_bits (int_to_bits (a - b))

/-- `a & b` on `int`. -/
def int_and (a b : Int) : Int := int_of_bits (int_to_bits a &&& int_to_bits b)

/-- `~a` on `int`: every one of the 32 bits flipped. -/
def int_not (a : Int) : Int := int_of_bits (int_to_bits a ^^^ 0xFFFFFFFF)

/-- Macro `ROUND8(x)`: `(((x)+7)&~7)`. -/
def ROUND8 (x : Int) : Int := int_and (int_add x 7) (int_not 7)

/-- Macro `ROUNDDOWN8(x)`: `((x)&~7)`. -/
def ROUNDDOWN8 (x : Int) : Int := int_and x (int_not 7)

/-- Macro `IsPowerOfTwo(X)`: `(((X)&((X)-1))==0)`. -/
def IsPowerOfTwo (X : Int) : Bool := int_and X (int_sub X 1) == 0

/-! ## Ordered-key comparison against an `UnpackedRecord`

The header declares `struct UnpackedRecord` and documents what the key
comparison functions do with it; the functions themselves, `Mem` and
`struct key_def` live in other files. -/

/-- Modelled from the spec: a decoded field value (`Mem` is declared outside this
header). The comparator distinguishes NULL, numbers in integer or float
representation (the float is a rational here), text and blobs. -/
inductive Mem where
  | null
  | int (i : Int)
  | real (q : Rat)
  | text (s : List Nat)
  | blob (b : List Nat)

/-- Modelled from the spec: one part of a key definition, a (field index,
collation, ascending/descending) triple; `struct key_def` is declared outside
this header. A collation is a comparison function for text values. -/
structure key_part where
  fieldno : Nat
  coll : List Nat → List Nat → Int
  sort_order_desc : Bool

/-- Modelled from the spec: a key definition, the ordered list of its parts. -/
structure key_def where
  parts : List key_part

/-- The number of parts of a key definition, `key_def->part_count`. -/
def key_def.part_count (kd : key_def) : Nat := kd.parts.length

/-- Struct `UnpackedRecord`: a record parsed out into individual fields, the
probe key of a search. -/
structure UnpackedRecord where
  /-- Collation and sort-order information. -/
  key_def : key_def
  /-- Values. -/
  aMem : List Mem
  /-- Number of entries in `aMem`. -/
  nField : Nat
  /-- Comparison result if keys are equal. -/
  default_rc : Int
  /-- Error detected by the comparison (CORRUPT or NOMEM). -/
  errCode : Nat
  /-- Value to return if (lhs > rhs). -/
  r1 : Int
  /-- Value to return if (rhs < lhs). -/
  r2 : Int
  /-- True if an equality comparison has been seen. -/
  eqSeen : Nat
  /-- Currently executing opcode that invoked the search. -/
  opcode : Nat

/-- Modelled from the spec: the error code a corrupted encoding leaves in
`errCode`; the spec fixes no number, any non-zero value serves. -/
def RECORD_CORRUPT : Nat := 1

/-- Modelled from the spec: the "defined sentinel" the comparator returns on a
corrupted encoding instead of a comparison result. -/
def RECORD_CORRUPT_RC : Int := 0

/-- Modelled from the spec: the type classes are totally ordered,
NULL < number < text < blob. -/
def Mem.type_class : Mem → Nat
  | Mem.null => 0
  | Mem.int _ => 1
  | Mem.real _ => 1
  | Mem.text _ => 2
  | Mem.blob _ => 3

/-- Modelled from the spec: the numeric value of a number, whatever its
representation. -/
def Mem.numeric : Mem → Rat
  | Mem.int i => (i : Rat)
  | Mem.real q => q
  | _ => 0

/-- Three-way comparison of two ordered values: -1, 0 or +1. -/
def three_way {α : Type} [LT α] [DecidableRel (fun a b : α => a < b)] (a b : α) : Int :=
  if a < b then -1 else if b < a then 1 else 0

/-- Modelled from the spec: blobs compare byte-wise. -/
def blob_compare : List Nat → List Nat → Int
  | [], [] => 0
  | [], _ :: _ => -1
  | _ :: _, [] => 1
  | a :: as, b :: bs => if a < b then -1 else if b < a then 1 else blob_compare as bs

/-- Modelled from the spec: comparison of one stored field with one probe field.
NULL orders before any value; numbers compare numerically regardless of
integer/float representation; text compares via the collation of the field;
blobs compare byte-wise; mixed type classes compare by class. -/
def compare_field (coll : List Nat → List Nat → Int) (a b : Mem) : Int :=
  match a, b with
  | Mem.text s, Mem.text t => coll s t
  | Mem.blob x, Mem.blob y => blob_compare x y
  | _, _ =>
    if a.type_class = b.type_class then
      (if a.type_class = 1 then three_way a.numeric b.numeric else 0)
    else three_way a.type_class b.type_class

/-- The fields a comparison looks at, left to right in key-definition order:
the stored field (`none` when its encoding is corrupted), the key part and the
probe field, for each of the `nField` fields the probe holds. -/
def compared_fields (key : List (Option Mem)) (probe : UnpackedRecord) :
    List (Option Mem × key_part × Mem) :=
  List.zip key (List.zip probe.key_def.parts (probe.aMem.take probe.nField))

/-- Modelled from the spec: the loop of the ordered-key comparator over the
fields still to compare. The first field that differs decides, its result
negated when its own part is descending; a corrupted field sets the error code
and returns the sentinel; when every field of the probe compared equal the
result is `default_rc` and `eqSeen` is set (the comment on
`struct UnpackedRecord`: the key comparison functions return `default_rc` when
they find an equals comparison, and set `eqSeen` if they ever get an equal
result). The fields `r1` and `r2` are carried by the record and not consulted
here: the spec gives the result of a differing field as that field's own
comparison, negated for a descending part. -/
def record_compare_loop :
    List (Option Mem × key_part × Mem) → UnpackedRecord → Int × UnpackedRecord
  | [], probe => (probe.default_rc, { probe with eqSeen := 1 })
  | (none, _, _) :: _, probe => (RECORD_CORRUPT_RC, { probe with errCode := RECORD_CORRUPT })
  | (some v, part, m) :: rest, probe =>
    let rc := compare_field part.coll v m
    if rc ≠ 0 then (if part.sort_order_desc then -rc else rc, probe)
    else record_compare_loop rest probe

/-- Modelled from the spec: the ordered-key comparator (the key comparison
functions of the comment on `struct UnpackedRecord`; their bodies are not in the
header). It compares an encoded storage key, given by its fields, against the
probe and returns the result together with the probe as the call leaves it. -/
def record_compare (key : List (Option Mem)) (probe : UnpackedRecord) :
    Int × UnpackedRecord :=
  record_compare_loop (compared_fields key probe) probe

/-- Byte-wise comparison as a collation (the binary collation), used in
examples. -/
def coll_binary : List Nat → List Nat → Int := blob_compare

/-- A two-part key definition, both parts ascending with the binary collation,
used in examples. -/
def key_def_example : key_def :=
  { parts := [⟨0, coll_binary, false⟩, ⟨1, coll_binary, false⟩] }

/-- A probe holding only the first field of `key_def_example`, with
`default_rc = -1`, used in examples. -/
def probe_example : UnpackedRecord :=
  { key_def := key_def_example, aMem := [Mem.real 7], nField := 1, default_rc := -1,
    errCode := 0, r1 := -1, r2 := 1, eqSeen := 0, opcode := 0 }

/-- A stored key under `key_def_example`, used in examples. -/
def stored_key_example : List (Option Mem) := [some (Mem.int 7), some (Mem.text [0x61])]

/-! ## Logarithmic estimates (`LogEst`, `sqlLogEst`) and the default tuple count -/

/-- Modelled from the spec: the table behind `sqlLogEst`, whose body is not in
this header. Entry `k` is `10*log2(1 + k/8)` rounded to the nearest integer, the
contribution of the three bits below the leading bit of the quantity. -/
def LogEst_table : List Int := [0, 2, 3, 5, 6, 7, 8, 9]

/-- Modelled from the spec: the loop of `sqlLogEst` that scales a quantity below
8 up, `while( x<8 ){ y -= 10; x <<= 1; }` on a `u64`. `none` means the fuel ran
out with the loop still running. -/
def logest_scale_up : Nat → Nat → Int → Option (Nat × Int)
  | 0, x, y => if x < 8 then none else some (x, y)
  | fuel + 1, x, y =>
    if x < 8 then logest_scale_up fuel ((x <<< 1) % 2 ^ 64) (y - 10) else some (x, y)

/-- Modelled from the spec: the loop of `sqlLogEst` that scales a large quantity
down four bits at a time, `while( x>255 ){ y += 40; x >>= 4; }`. `none` means
the fuel ran out with the loop still running. -/
def logest_scale_down4 : Nat → Nat → Int → Option (Nat × Int)
  | 0, x, y => if x > 255 then none else some (x, y)
  | fuel + 1, x, y =>
    if x > 255 then logest_scale_down4 fuel (x >>> 4) (y + 40) else some (x, y)

/-- Modelled from the spec: the loop of `sqlLogEst` that scales a quantity down
one bit at a time, `while( x>15 ){ y += 10; x >>= 1; }`. `none` means the fuel
ran out with the loop still running. -/
def logest_scale_down1 : Nat → Nat → Int → Option (Nat × Int)
  | 0, x, y => if x > 15 then none else some (x, y)
  | fuel + 1, x, y =>
    if x > 15 then logest_scale_down1 fuel (x >>> 1) (y + 10) else some (x, y)

/-- Modelled from the spec: `LogEst sqlLogEst(u64 x)`, of which this header holds
only the prototype and the comment on `LogEst`. The quantity is a fixed-point
integer approximating `10*log2(x)`: `x` is scaled into `8..15`, every doubling
counting for 10, and the three bits below the leading one are looked up in
`LogEst_table`; so the values are grainy, 16 and 17 having the same estimate.
Quantities below 2 give 0. Each loop runs on 64 units of fuel, the width of a
`u64`; `none` would mean that a loop did not end within them. -/
def sqlLogEst (x : Nat) : Option Int :=
  if x < 8 then
    if x < 2 then some 0
    else
      (logest_scale_up 64 x 40).map
        (fun r => LogEst_table.getD (r.1 &&& 7) 0 + r.2 - 10)
  else
    (logest_scale_down4 64 x 40).bind fun r4 =>
      (logest_scale_down1 64 r4.1 r4.2).map
        (fun r => LogEst_table.getD (r.1 &&& 7) 0 + r.2 - 10)

/-- The examples of the comment on `LogEst`, quantity and estimate:
`1 -> 0, 2 -> 10, 3 -> 16, 4 -> 20, 10 -> 33, 20 -> 43, 25 -> 46, 100 -> 66,
1000 -> 99, 1024 -> 100, 10000 -> 132, 25000 -> 146, 1000000 -> 199,
1048576 -> 200, 4294967296 -> 320`. -/
def LogEst_examples : List (Nat × Int) :=
  [(1, 0), (2, 10), (3, 16), (4, 20), (10, 33), (20, 43), (25, 46), (100, 66),
   (1000, 99), (1024, 100), (10000, 132), (25000, 146), (1000000, 199),
   (1048576, 200), (4294967296, 320)]

/-- Constant `DEFAULT_TUPLE_COUNT`, defined as `1048576`. -/
def DEFAULT_TUPLE_COUNT : Nat := 1048576

/-- Constant `DEFAULT_TUPLE_LOG_COUNT`, defined as `200`, with the comment
`[10*log_{2}(1048576)] == 200`. -/
def DEFAULT_TUPLE_LOG_COUNT : Nat := 200

/-! ## Theorems -/

/-- The trail-byte count never exceeds three. -/
theorem count_trail_bytes_le (b : Nat) : SQL_UTF8_COUNT_TRAIL_BYTES b ≤ 3 := by
  unfold SQL_UTF8_COUNT_TRAIL_BYTES c_bool
  split_ifs <;> omega

/-- C1: for every byte string `str` of `byte_size` bytes and every offset `i`
with `i < byte_size`, `SQL_UTF8_FWD_1` leaves an offset strictly above `i` and
at most `byte_size`; it is `i + 1 + SQL_UTF8_COUNT_TRAIL_BYTES(str[i])`, replaced
by `byte_size` when that exceeds `byte_size`. -/
theorem utf8_fwd_1_advances (str : List Nat) (i byte_size : Nat)
    (hlen : str.length = byte_size) (hi : i < byte_size) :
    i < SQL_UTF8_FWD_1 str i byte_size ∧ SQL_UTF8_FWD_1 str i byte_size ≤ byte_size ∧
    SQL_UTF8_FWD_1 str i byte_size =
      min (i + 1 + SQL_UTF8_COUNT_TRAIL_BYTES (str.get ⟨i, hlen ▸ hi⟩)) byte_size := by
  have hget : str.getD i 0 = str.get ⟨i, hlen ▸ hi⟩ := by
    simp [List.getD_eq_getElem?_getD, List.getElem?_eq_getElem (hlen ▸ hi)]
  simp only [SQL_UTF8_FWD_1, hget]
  split_ifs with h
  · refine ⟨by omega, h, ?_⟩
    rw [Nat.min_def, if_pos (by omega)]
    omega
  · refine ⟨hi, le_refl _, ?_⟩
    rw [Nat.min_def, if_neg (by omega)]

/-- Witness of C1: on the one-byte string `0xE0` the offset goes from 0 to 1. -/
theorem utf8_fwd_1_advances_witness :
    SQL_UTF8_FWD_1 [0xE0] 0 1 = 1 ∧
    (0 < SQL_UTF8_FWD_1 [0xE0] 0 1 ∧ SQL_UTF8_FWD_1 [0xE0] 0 1 ≤ 1 ∧
      SQL_UTF8_FWD_1 [0xE0] 0 1 =
        min (0 + 1 + SQL_UTF8_COUNT_TRAIL_BYTES ([0xE0].get ⟨0, by decide⟩)) 1) :=
  ⟨by decide, utf8_fwd_1_advances [0xE0] 0 1 (by decide) (by decide)⟩

/-- The traversal from any offset `i ≤ byte_size` ends at `byte_size` after at
most `byte_size - i` further applications, given that much fuel. -/
theorem utf8_traverse_from (str : List Nat) (byte_size : Nat) :
    ∀ (fuel i n : Nat), i ≤ byte_size → byte_size - i ≤ fuel →
      ∃ k, k ≤ byte_size - i ∧
        utf8_traverse fuel str i byte_size n = some (byte_size, n + k) := by
  intro fuel
  induction fuel with
  | zero =>
    intro i n hi hf
    have : i = byte_size := by omega
    subst this
    exact ⟨0, by omega, by simp [utf8_traverse]⟩
  | succ fuel ih =>
    intro i n hi hf
    by_cases hlt : i < byte_size
    · have hadv : i < SQL_UTF8_FWD_1 str i byte_size ∧
          SQL_UTF8_FWD_1 str i byte_size ≤ byte_size := by
        simp only [SQL_UTF8_FWD_1]
        split_ifs with h
        · exact ⟨by omega, h⟩
        · exact ⟨hlt, le_refl _⟩
      obtain ⟨k, hk, hrun⟩ :=
        ih (SQL_UTF8_FWD_1 str i byte_size) (n + 1) hadv.2 (by omega)
      refine ⟨k + 1, by omega, ?_⟩
      rw [utf8_traverse, if_pos hlt, hrun]
      congr 2
      omega
    · have : i = byte_size := by omega
      subst this
      exact ⟨0, by omega, by simp [utf8_traverse]⟩

/-- C2: for every byte string of `byte_size` bytes, valid UTF-8 or not, the
traversal from offset 0 with `SQL_UTF8_FWD_1` terminates after at most
`byte_size` applications (any fuel of at least `byte_size` is enough) and the
final offset is exactly `byte_size`. -/
theorem utf8_traverse_terminates (str : List Nat) (fuel : Nat) (hfuel : str.length ≤ fuel) :
    ∃ n, n ≤ str.length ∧
      utf8_traverse fuel str 0 str.length 0 = some (str.length, n) := by
  obtain ⟨k, hk, hrun⟩ := utf8_traverse_from str str.length fuel 0 0 (Nat.zero_le _) (by omega)
  exact ⟨k, by omega, by simpa using hrun⟩

/-- Witness of C2: the invalid three-byte string `0xE0 0x41 0xF4` is traversed
with fuel 3. -/
theorem utf8_traverse_terminates_witness :
    ∃ n, n ≤ [0xE0, 0x41, 0xF4].length ∧
      utf8_traverse 3 [0xE0, 0x41, 0xF4] 0 [0xE0, 0x41, 0xF4].length 0 =
        some ([0xE0, 0x41, 0xF4].length, n) :=
  utf8_traverse_terminates [0xE0, 0x41, 0xF4] 3 (by decide)

/-- C3: for every lead byte `b` of a valid UTF-8 sequence,
`SQL_UTF8_COUNT_TRAIL_BYTES(b)` is the number of continuation bytes:
0 for `0x00..0x7F`, 1 for `0xC2..0xDF`, 2 for `0xE0..0xEF`, 3 for `0xF0..0xF4`. -/
theorem count_trail_bytes_valid_lead (b : Nat) :
    (b ≤ 0x7F → SQL_UTF8_COUNT_TRAIL_BYTES b = 0) ∧
    (0xC2 ≤ b ∧ b ≤ 0xDF → SQL_UTF8_COUNT_TRAIL_BYTES b = 1) ∧
    (0xE0 ≤ b ∧ b ≤ 0xEF → SQL_UTF8_COUNT_TRAIL_BYTES b = 2) ∧
    (0xF0 ≤ b ∧ b ≤ 0xF4 → SQL_UTF8_COUNT_TRAIL_BYTES b = 3) := by
  unfold SQL_UTF8_COUNT_TRAIL_BYTES c_bool uint8_t
  refine ⟨fun h => ?_, fun h => ?_, fun h => ?_, fun h => ?_⟩ <;>
    (split_ifs <;> omega)

/-- Witness of C3 at the lead bytes `0x41`, `0xC3`, `0xE2` and `0xF0`. -/
theorem count_trail_bytes_valid_lead_witness :
    SQL_UTF8_COUNT_TRAIL_BYTES 0x41 = 0 ∧ SQL_UTF8_COUNT_TRAIL_BYTES 0xC3 = 1 ∧
    SQL_UTF8_COUNT_TRAIL_BYTES 0xE2 = 2 ∧ SQL_UTF8_COUNT_TRAIL_BYTES 0xF0 = 3 :=
  ⟨(count_trail_bytes_valid_lead 0x41).1 (by decide),
   (count_trail_bytes_valid_lead 0xC3).2.1 ⟨by decide, by decide⟩,
   (count_trail_bytes_valid_lead 0xE2).2.2.1 ⟨by decide, by decide⟩,
   (count_trail_bytes_valid_lead 0xF0).2.2.2 ⟨by decide, by decide⟩⟩

set_option maxRecDepth 100000 in
/-- On a byte, the test `(b & 0xc0)==0x80` of `SQL_SKIP_UTF8` is the test for a
continuation byte `0x80..0xBF`. -/
theorem land_c0_eq_80_iff : ∀ b < 256, (b &&& 0xc0 = 0x80 ↔ 0x80 ≤ b ∧ b ≤ 0xBF) := by
  decide

/-- C4: in a buffer of unsigned bytes where `zIn` is at the first byte of a
valid UTF-8 character `ch` of `L` bytes (`1 ≤ L ≤ 4`) followed by a byte `next`
outside `0x80..0xBF`, `SQL_SKIP_UTF8` advances `zIn` by exactly `L`. -/
theorem skip_utf8_valid_char (pre ch post : List Nat) (next : Nat)
    (hbytes : ∀ b ∈ pre ++ ch ++ next :: post, b < 256)
    (hch : utf8_valid_char ch = true)
    (hnext : ¬ (0x80 ≤ next ∧ next ≤ 0xBF)) :
    1 ≤ ch.length ∧ ch.length ≤ 4 ∧
    SQL_SKIP_UTF8 (pre ++ ch ++ next :: post) pre.length = some (pre.length + ch.length) := by
  have hn : next < 256 := hbytes next (by simp)
  have hnx : ¬ (next &&& 0xc0 = 0x80) := fun h => hnext ((land_c0_eq_80_iff next hn).1 h)
  have hc : ∀ b, utf8_is_continuation b = true → b &&& 0xc0 = 0x80 := by
    intro b hb
    simp only [utf8_is_continuation, Bool.and_eq_true, decide_eq_true_eq] at hb
    exact (land_c0_eq_80_iff b (by omega)).2 hb
  have hc2 : ∀ b, 0x80 ≤ b → b ≤ 0xBF → b &&& 0xc0 = 0x80 := fun b h1 h2 =>
    (land_c0_eq_80_iff b (by omega)).2 ⟨h1, h2⟩
  match ch, hch with
  | [b0], h =>
    simp only [utf8_valid_char, decide_eq_true_eq] at h
    refine ⟨by simp, by simp, ?_⟩
    simp only [SQL_SKIP_UTF8, List.append_assoc, List.drop_left, List.cons_append,
      List.nil_append, List.length_cons, List.length_nil]
    rw [if_neg (by omega)]
  | [b0, b1], h =>
    simp only [utf8_valid_char, Bool.and_eq_true, decide_eq_true_eq] at h
    refine ⟨by simp, by simp, ?_⟩
    simp only [SQL_SKIP_UTF8, List.append_assoc, List.drop_left, List.cons_append,
      List.nil_append, List.length_cons, List.length_nil]
    rw [if_pos (by omega)]
    simp only [skip_utf8_trail, hc b1 h.2, if_true, if_neg hnx]
  | [b0, b1, b2], h =>
    simp only [utf8_valid_char, Bool.and_eq_true, Bool.or_eq_true, decide_eq_true_eq] at h
    have h0 : b0 ≥ 0xc0 := by omega
    have h1 : b1 &&& 0xc0 = 0x80 := by
      rcases h.1 with ((h1 | h1) | h1) | h1
      · exact hc2 b1 (by omega) (by omega)
      · exact hc b1 h1.2
      · exact hc2 b1 (by omega) (by omega)
      · exact hc b1 h1.2
    refine ⟨by simp, by simp, ?_⟩
    simp only [SQL_SKIP_UTF8, List.append_assoc, List.drop_left, List.cons_append,
      List.nil_append, List.length_cons, List.length_nil]
    rw [if_pos h0]
    simp only [skip_utf8_trail, h1, hc b2 h.2, if_true, if_neg hnx]
  | [b0, b1, b2, b3], h =>
    simp only [utf8_valid_char, Bool.and_eq_true, Bool.or_eq_true, decide_eq_true_eq] at h
    have h0 : b0 ≥ 0xc0 := by omega
    have h1 : b1 &&& 0xc0 = 0x80 := by
      rcases h.1.1 with (h1 | h1) | h1
      · exact hc2 b1 (by omega) (by omega)
      · exact hc b1 h1.2
      · exact hc2 b1 (by omega) (by omega)
    refine ⟨by simp, by simp, ?_⟩
    simp only [SQL_SKIP_UTF8, List.append_assoc, List.drop_left, List.cons_append,
      List.nil_append, List.length_cons, List.length_nil]
    rw [if_pos h0]
    simp only [skip_utf8_trail, h1, hc b2 h.1.2, hc b3 h.2, if_true, if_neg hnx]

/-- Witness of C4: in `"a€b"` followed by NUL, the three-byte character
`E2 82 AC` at position 1 is skipped to position 4. -/
theorem skip_utf8_valid_char_witness :
    1 ≤ [0xE2, 0x82, 0xAC].length ∧ [0xE2, 0x82, 0xAC].length ≤ 4 ∧
    SQL_SKIP_UTF8 ([0x61] ++ [0xE2, 0x82, 0xAC] ++ 0x62 :: [0]) [0x61].length =
      some ([0x61].length + [0xE2, 0x82, 0xAC].length) :=
  skip_utf8_valid_char [0x61] [0xE2, 0x82, 0xAC] [0] 0x62 (by decide) (by decide) (by decide)

/-- C5: `SET_CONFLICT_FLAG(opflag, a)` yields `opflag | OPFLAG_OE_IGNORE` for
IGNORE, `opflag | OPFLAG_OE_FAIL` for FAIL, `opflag | OPFLAG_OE_ROLLBACK` for
ROLLBACK, and leaves `opflag` unchanged for ABORT, REPLACE, NONE and DEFAULT,
which are all the other actions. -/
theorem set_conflict_flag_spec (opflag : Nat) (a : on_conflict_action) :
    SET_CONFLICT_FLAG opflag ON_CONFLICT_ACTION_IGNORE = opflag ||| OPFLAG_OE_IGNORE ∧
    SET_CONFLICT_FLAG opflag ON_CONFLICT_ACTION_FAIL = opflag ||| OPFLAG_OE_FAIL ∧
    SET_CONFLICT_FLAG opflag ON_CONFLICT_ACTION_ROLLBACK = opflag ||| OPFLAG_OE_ROLLBACK ∧
    SET_CONFLICT_FLAG opflag ON_CONFLICT_ACTION_ABORT = opflag ∧
    SET_CONFLICT_FLAG opflag ON_CONFLICT_ACTION_REPLACE = opflag ∧
    SET_CONFLICT_FLAG opflag ON_CONFLICT_ACTION_NONE = opflag ∧
    SET_CONFLICT_FLAG opflag ON_CONFLICT_ACTION_DEFAULT = opflag ∧
    (a = ON_CONFLICT_ACTION_IGNORE ∨ a = ON_CONFLICT_ACTION_FAIL ∨
      a = ON_CONFLICT_ACTION_ROLLBACK ∨ SET_CONFLICT_FLAG opflag a = opflag) := by
  refine ⟨rfl, rfl, rfl, rfl, rfl, rfl, rfl, ?_⟩
  cases a <;> simp [SET_CONFLICT_FLAG]

/-- C6: for every `SelectDest` whose `eDest` is one of the fourteen `SRT_*`
destinations, `IgnorableOrderby` is true exactly when `eDest` is one of the
eight destinations defined above the macro, and false for `SRT_Output`,
`SRT_Mem`, `SRT_Set`, `SRT_EphemTab`, `SRT_Coroutine` and `SRT_Table`. -/
theorem ignorable_orderby_spec (d : SelectDest) (h : d.eDest ∈ SRT_all) :
    (IgnorableOrderby d = true ↔ d.eDest ∈ SRT_above_macro) ∧
    (d.eDest ∈ SRT_below_macro → IgnorableOrderby d = false) := by
  simp only [SRT_all, SRT_above_macro, SRT_below_macro, IgnorableOrderby, SRT_Union,
    SRT_Except, SRT_Exists, SRT_Discard, SRT_Fifo, SRT_DistFifo, SRT_Queue, SRT_DistQueue,
    SRT_Output, SRT_Mem, SRT_Set, SRT_EphemTab, SRT_Coroutine, SRT_Table, List.mem_cons,
    List.mem_singleton, List.not_mem_nil, or_false, decide_eq_true_eq,
    decide_eq_false_iff_not] at h ⊢
  omega

/-- Witness of C6 at a `SRT_Queue` destination. -/
theorem ignorable_orderby_spec_witness :
    (IgnorableOrderby ⟨SRT_Queue, 0, 0, 0, 0⟩ = true ↔ SRT_Queue ∈ SRT_above_macro) ∧
    (SRT_Queue ∈ SRT_below_macro → IgnorableOrderby ⟨SRT_Queue, 0, 0, 0, 0⟩ = false) :=
  ignorable_orderby_spec ⟨SRT_Queue, 0, 0, 0, 0⟩ (by decide)

/-- Masking a 32-bit pattern with `0xFFFFFFF8` clears its three low bits. -/
theorem land_mask8 (n : Nat) (h : n < 2 ^ 32) : n &&& 0xFFFFFFF8 = 8 * (n / 8) := by
  apply Nat.eq_of_testBit_eq
  intro i
  have e1 : (0xFFFFFFF8 : Nat) = 2 ^ 3 * (2 ^ 29 - 1) := by norm_num
  have e2 : 8 * (n / 8) = 2 ^ 3 * (n / 2 ^ 3) := by norm_num
  rw [Nat.testBit_and, e1, e2, Nat.testBit_mul_pow_two, Nat.testBit_mul_pow_two,
    Nat.testBit_two_pow_sub_one, ← Nat.shiftRight_eq_div_pow, Nat.testBit_shiftRight]
  by_cases h3 : 3 ≤ i
  · have hi : 3 + (i - 3) = i := by omega
    rw [hi]
    by_cases h32 : i < 32
    · have : i - 3 < 29 := by omega
      simp [h3, this]
    · have hpow : n < 2 ^ i :=
        lt_of_lt_of_le h (Nat.pow_le_pow_right (by norm_num) (by omega))
      simp [Nat.testBit_lt_two_pow hpow]
  · simp [h3]

/-- The pattern of `~7` is `0xFFFFFFF8`. -/
theorem int_to_bits_not_7 : int_to_bits (int_not 7) = 0xFFFFFFF8 := by decide

/-- `x & ~7` is `x` minus its remainder modulo 8. -/
theorem int_and_not_7 (x : Int) (hlo : -2 ^ 31 ≤ x) (hhi : x < 2 ^ 31) :
    int_and x (int_not 7) = x - x % 8 := by
  have hb : int_to_bits x < 2 ^ 32 := by
    unfold int_to_bits
    omega
  rw [int_and, int_to_bits_not_7, land_mask8 _ hb]
  unfold int_of_bits int_to_bits
  split_ifs <;> omega

/-- C7: for every 32-bit signed `x` with `x ≤ 2^31 - 8`, `ROUND8(x)` is
divisible by 8 and `x ≤ ROUND8(x) ≤ x + 7`. -/
theorem round8_spec (x : Int) (hlo : -2 ^ 31 ≤ x) (hhi : x ≤ 2 ^ 31 - 8) :
    8 ∣ ROUND8 x ∧ x ≤ ROUND8 x ∧ ROUND8 x ≤ x + 7 := by
  have hadd : int_add x 7 = x + 7 := by
    unfold int_add int_of_bits int_to_bits
    split_ifs <;> omega
  rw [ROUND8, hadd, int_and_not_7 (x + 7) (by omega) (by omega)]
  omega

/-- Witness of C7 at `x = -13`, where `ROUND8(x) = -8`. -/
theorem round8_spec_witness :
    ROUND8 (-13) = -8 ∧ (8 ∣ ROUND8 (-13) ∧ -13 ≤ ROUND8 (-13) ∧ ROUND8 (-13) ≤ -13 + 7) :=
  ⟨by decide, round8_spec (-13) (by decide) (by decide)⟩

/-- C8: for every 32-bit signed `x`, `ROUNDDOWN8(x)` is divisible by 8 and
`x - 7 ≤ ROUNDDOWN8(x) ≤ x`. -/
theorem rounddown8_spec (x : Int) (hlo : -2 ^ 31 ≤ x) (hhi : x < 2 ^ 31) :
    8 ∣ ROUNDDOWN8 x ∧ x - 7 ≤ ROUNDDOWN8 x ∧ ROUNDDOWN8 x ≤ x := by
  rw [ROUNDDOWN8, int_and_not_7 x hlo hhi]
  omega

/-- Witness of C8 at `x = -13`, where `ROUNDDOWN8(x) = -16`. -/
theorem rounddown8_spec_witness :
    ROUNDDOWN8 (-13) = -16 ∧
    (8 ∣ ROUNDDOWN8 (-13) ∧ -13 - 7 ≤ ROUNDDOWN8 (-13) ∧ ROUNDDOWN8 (-13) ≤ -13) :=
  ⟨by decide, rounddown8_spec (-13) (by decide) (by decide)⟩

/-- For a positive natural number, `n & (n - 1)` vanishes exactly on the powers
of two. -/
theorem land_pred_eq_zero_iff (n : Nat) (hn : 0 < n) :
    n &&& (n - 1) = 0 ↔ ∃ k : Nat, n = 2 ^ k := by
  induction n using Nat.strong_induction_on with
  | _ n ih =>
    have hdiv : (n &&& (n - 1)) / 2 = n / 2 &&& (n - 1) / 2 := Nat.and_div_two
    have hmod : (n &&& (n - 1)) % 2 = 1 ↔ n % 2 = 1 ∧ (n - 1) % 2 = 1 :=
      Nat.and_mod_two_eq_one
    have hmod0 : (n &&& (n - 1)) % 2 = 0 := by omega
    rcases Nat.mod_two_eq_zero_or_one n with he | ho
    · -- `n` even: both sides reduce to `n / 2`
      have hhalf : (n - 1) / 2 = n / 2 - 1 := by omega
      have hpos : 0 < n / 2 := by omega
      have ih2 := ih (n / 2) (by omega) hpos
      rw [hhalf] at hdiv
      constructor
      · intro h0
        have : n / 2 &&& (n / 2 - 1) = 0 := by rw [← hdiv, h0]
        obtain ⟨k, hk⟩ := ih2.1 this
        exact ⟨k + 1, by rw [pow_succ]; omega⟩
      · rintro ⟨k, hk⟩
        cases k with
        | zero => simp at hk; omega
        | succ k =>
          have hk2 : n / 2 = 2 ^ k := by rw [hk, pow_succ]; omega
          have := ih2.2 ⟨k, hk2⟩
          omega
    · -- `n` odd: `n & (n - 1)` is `n - 1`
      have hhalf : (n - 1) / 2 = n / 2 := by omega
      rw [hhalf, Nat.and_self] at hdiv
      constructor
      · intro h0
        rw [h0] at hdiv
        exact ⟨0, by simp; omega⟩
      · rintro ⟨k, hk⟩
        cases k with
        | zero =>
          simp at hk
          subst hk
          rfl
        | succ k => rw [hk, pow_succ] at ho; omega

/-- On a positive C `int`, `IsPowerOfTwo(X)` holds exactly when `X` is a power
of two. -/
theorem is_power_of_two_pos (X : Int) (hpos : 0 < X) (hhi : X < 2 ^ 31) :
    IsPowerOfTwo X = true ↔ ∃ k : Nat, X = 2 ^ k := by
  obtain ⟨n, rfl⟩ := Int.eq_ofNat_of_zero_le (le_of_lt hpos)
  have hn : 0 < n := by omega
  have hb1 : int_to_bits (n : Int) = n := by unfold int_to_bits; omega
  have hb2 : int_to_bits (int_sub (n : Int) 1) = n - 1 := by
    unfold int_sub int_of_bits int_to_bits
    split_ifs <;> omega
  have hle : n &&& (n - 1) ≤ n := Nat.and_le_left
  have hval : int_and (n : Int) (int_sub (n : Int) 1) = ((n &&& (n - 1) : Nat) : Int) := by
    rw [int_and, hb1, hb2]
    unfold int_of_bits
    split_ifs <;> omega
  rw [IsPowerOfTwo, hval, beq_iff_eq]
  constructor
  · intro h
    obtain ⟨k, hk⟩ := (land_pred_eq_zero_iff n hn).1 (by exact_mod_cast h)
    exact ⟨k, by exact_mod_cast hk⟩
  · rintro ⟨k, hk⟩
    have : n &&& (n - 1) = 0 := (land_pred_eq_zero_iff n hn).2 ⟨k, by exact_mod_cast hk⟩
    exact_mod_cast this

/-- C9 at its failing input: `IsPowerOfTwo(0)` is true although 0 is no power of
two, so at `X = 0` the macro does not determine whether its argument is a power
of two. -/
theorem is_power_of_two_zero :
    IsPowerOfTwo 0 = true ∧ ¬ ∃ k : Nat, (0 : Int) = 2 ^ k := by
  refine ⟨by decide, ?_⟩
  rintro ⟨k, hk⟩
  have : (0 : Int) < 2 ^ k := by positivity
  omega

/-- When every compared field is well encoded and compares equal, the loop of
the comparator returns `default_rc` and sets `eqSeen`, touching nothing else. -/
theorem record_compare_loop_equal (probe : UnpackedRecord) :
    ∀ fields : List (Option Mem × key_part × Mem),
      (∀ t ∈ fields, ∃ v, t.1 = some v ∧ compare_field t.2.1.coll v t.2.2 = 0) →
      record_compare_loop fields probe = (probe.default_rc, { probe with eqSeen := 1 }) := by
  intro fields
  induction fields with
  | nil => intro _; rfl
  | cons t rest ih =>
    intro h
    obtain ⟨k, part, m⟩ := t
    obtain ⟨v, hv, hc⟩ := h (k, part, m) (List.mem_cons_self _ _)
    simp only at hv hc
    subst hv
    have hrest := ih (fun t ht => h t (List.mem_cons_of_mem _ ht))
    simp only [record_compare_loop, hc, ne_eq, not_true_eq_false, if_false, hrest]

/-- C10: when the compared keys are equal on all fields of the probe key, the
key comparison returns the probe's `default_rc` instead of 0 and sets the
record's `eqSeen` flag; so for a probe that holds fewer fields than the key
definition and has `default_rc ≠ 0`, the result on equal fields is non-zero. -/
theorem record_compare_equal_returns_default_rc (key : List (Option Mem))
    (probe : UnpackedRecord)
    (heq : ∀ t ∈ compared_fields key probe,
      ∃ v, t.1 = some v ∧ compare_field t.2.1.coll v t.2.2 = 0) :
    (record_compare key probe).1 = probe.default_rc ∧
    (record_compare key probe).2.eqSeen = 1 ∧
    (probe.nField < probe.key_def.part_count → probe.default_rc ≠ 0 →
      (record_compare key probe).1 ≠ 0) := by
  have h := record_compare_loop_equal probe (compared_fields key probe) heq
  rw [record_compare, h]
  exact ⟨rfl, rfl, fun _ hne => hne⟩

/-- Witness of C10: the stored key `(7, "a")` against the one-field probe `(7.0)`
with `default_rc = -1` compares as -1 and sets `eqSeen`. -/
theorem record_compare_equal_returns_default_rc_witness :
    (record_compare stored_key_example probe_example).1 = -1 ∧
    (record_compare stored_key_example probe_example).2.eqSeen = 1 ∧
    (record_compare stored_key_example probe_example).1 ≠ 0 :=
  have h := record_compare_equal_returns_default_rc stored_key_example probe_example
    (by
      intro t ht
      simp only [compared_fields, stored_key_example, probe_example, key_def_example,
        List.take, List.zip_cons_cons, List.zip_nil_right, List.mem_singleton] at ht
      subst ht
      exact ⟨Mem.int 7, rfl, by simp [compare_field, Mem.type_class, Mem.numeric, three_way]⟩)
  ⟨h.1, h.2.1, h.2.2 (by decide) (by decide)⟩

/-- The four-bit scaling loop of `sqlLogEst` ends within its fuel on every
quantity below `2^(4*fuel + 8)`, and leaves a quantity of at most 255. -/
theorem logest_scale_down4_ends :
    ∀ (fuel x : Nat) (y : Int), x < 2 ^ (4 * fuel + 8) →
      ∃ r, logest_scale_down4 fuel x y = some r ∧ r.1 ≤ 255 := by
  intro fuel
  induction fuel with
  | zero =>
    intro x y hx
    have hx8 : x < 256 := by simpa using hx
    exact ⟨(x, y), by simp [logest_scale_down4]; omega, by simp; omega⟩
  | succ fuel ih =>
    intro x y hx
    by_cases hgt : x > 255
    · have hpow : 2 ^ (4 * (fuel + 1) + 8) = 16 * 2 ^ (4 * fuel + 8) := by ring
      have hshift : x >>> 4 < 2 ^ (4 * fuel + 8) := by
        rw [Nat.shiftRight_eq_div_pow]
        rw [hpow] at hx
        have : (2 : Nat) ^ 4 = 16 := by norm_num
        omega
      obtain ⟨r, hr, hle⟩ := ih (x >>> 4) (y + 40) hshift
      exact ⟨r, by rw [logest_scale_down4, if_pos hgt, hr], hle⟩
    · exact ⟨(x, y), by rw [logest_scale_down4, if_neg hgt], by simp; omega⟩

/-- The one-bit scaling loop of `sqlLogEst` ends within its fuel on every
quantity below `2^(fuel + 4)`. -/
theorem logest_scale_down1_ends :
    ∀ (fuel x : Nat) (y : Int), x < 2 ^ (fuel + 4) →
      ∃ r, logest_scale_down1 fuel x y = some r := by
  intro fuel
  induction fuel with
  | zero =>
    intro x y hx
    have hx4 : x < 16 := by simpa using hx
    exact ⟨(x, y), by simp [logest_scale_down1]; omega⟩
  | succ fuel ih =>
    intro x y hx
    by_cases hgt : x > 15
    · have hpow : 2 ^ (fuel + 1 + 4) = 2 * 2 ^ (fuel + 4) := by ring
      have hshift : x >>> 1 < 2 ^ (fuel + 4) := by
        rw [Nat.shiftRight_eq_div_pow]
        rw [hpow] at hx
        have : (2 : Nat) ^ 1 = 2 := by norm_num
        omega
      obtain ⟨r, hr⟩ := ih (x >>> 1) (y + 10) hshift
      exact ⟨r, by rw [logest_scale_down1, if_pos hgt, hr]⟩
    · exact ⟨(x, y), by rw [logest_scale_down1, if_neg hgt]⟩

set_option exponentiation.threshold 400 in
/-- The model of `sqlLogEst` returns an estimate for every `u64` quantity: no
loop runs out of its 64 units of fuel. -/
theorem sqlLogEst_total (x : Nat) (hx : x < 2 ^ 64) : ∃ v, sqlLogEst x = some v := by
  unfold sqlLogEst
  by_cases h8 : x < 8
  · rw [if_pos h8]
    by_cases h2 : x < 2
    · exact ⟨0, by rw [if_pos h2]⟩
    · rw [if_neg h2]
      have hcases : x = 2 ∨ x = 3 ∨ x = 4 ∨ x = 5 ∨ x = 6 ∨ x = 7 := by omega
      rcases hcases with h | h | h | h | h | h <;> subst h <;>
        exact Option.isSome_iff_exists.1 (by decide)
  · rw [if_neg h8]
    have hx4 : x < 2 ^ (4 * 64 + 8) :=
      lt_of_lt_of_le hx (Nat.pow_le_pow_right (by norm_num) (by norm_num))
    obtain ⟨r4, hr4, hle⟩ := logest_scale_down4_ends 64 x 40 hx4
    have hx1 : r4.1 < 2 ^ (64 + 4) :=
      lt_of_le_of_lt hle (by norm_num)
    obtain ⟨r, hr⟩ := logest_scale_down1_ends 64 r4.1 r4.2 hx1
    exact ⟨_, by rw [hr4, Option.some_bind, hr, Option.map_some']⟩

set_option exponentiation.threshold 400 in
/-- Every example of the comment on `LogEst` is within one unit of `10*log2` of
its quantity: for `X -> v`, `2^v < 2 * X^10` and `X^10 < 2 * 2^v`. -/
theorem LogEst_examples_within_one :
    ∀ p ∈ LogEst_examples, (2 : Nat) ^ p.2.toNat < 2 * p.1 ^ 10 ∧
      p.1 ^ 10 < 2 * 2 ^ p.2.toNat := by
  decide

/-- C11: `sqlLogEst(X)` returns the estimate of `10*log2(X)` the comment on
`LogEst` documents, `1 -> 0, 2 -> 10, 3 -> 16, 4 -> 20, 10 -> 33, 20 -> 43,
25 -> 46, 100 -> 66, 1000 -> 99, 1024 -> 100, 10000 -> 132, 25000 -> 146,
1000000 -> 199, 1048576 -> 200, 4294967296 -> 320`, and the quantities 16 and 17
are both represented by the LogEst 40. -/
theorem sqlLogEst_documented_grid :
    sqlLogEst 1 = some 0 ∧ sqlLogEst 2 = some 10 ∧ sqlLogEst 3 = some 16 ∧
    sqlLogEst 4 = some 20 ∧ sqlLogEst 10 = some 33 ∧ sqlLogEst 20 = some 43 ∧
    sqlLogEst 25 = some 46 ∧ sqlLogEst 100 = some 66 ∧ sqlLogEst 1000 = some 99 ∧
    sqlLogEst 1024 = some 100 ∧ sqlLogEst 10000 = some 132 ∧
    sqlLogEst 25000 = some 146 ∧ sqlLogEst 1000000 = some 199 ∧
    sqlLogEst 1048576 = some 200 ∧ sqlLogEst 4294967296 = some 320 ∧
    sqlLogEst 16 = some 40 ∧ sqlLogEst 17 = some 40 := by
  decide

/-- C12: `DEFAULT_TUPLE_LOG_COUNT` is the log-cardinality estimate of
`DEFAULT_TUPLE_COUNT`, exactly: `10 * log2(DEFAULT_TUPLE_COUNT)` equals
`DEFAULT_TUPLE_LOG_COUNT`, that is `2^(200/10) = 1048576`, 200 being a multiple
of 10. -/
theorem default_tuple_log_count_exact :
    (10 : ℝ) * Real.logb 2 (DEFAULT_TUPLE_COUNT : ℝ) = (DEFAULT_TUPLE_LOG_COUNT : ℝ) ∧
    2 ^ (DEFAULT_TUPLE_LOG_COUNT / 10) = DEFAULT_TUPLE_COUNT ∧
    10 ∣ DEFAULT_TUPLE_LOG_COUNT := by
  refine ⟨?_, by decide, by decide⟩
  have h : ((DEFAULT_TUPLE_COUNT : Nat) : ℝ) = (2 : ℝ) ^ (20 : ℕ) := by
    norm_num [DEFAULT_TUPLE_COUNT]
  rw [h, Real.logb_pow, Real.logb_self_eq_one (by norm_num)]
  norm_num [DEFAULT_TUPLE_LOG_COUNT]

end SqlInt
